import Mathlib

/-!
Verification of the chat page of buildora-fr (src/src/pages/ChatPage.tsx)
against its natural-language specification.  The relevant pieces of the
component are shallowly embedded: strings are lists of characters, the
React state updates become explicit state passing, the backend becomes
explicit response parameters, and the `setMessages` calls become an
explicit list of message-list operations applied in order.
-/

namespace ChatPage

/-- Decoded text of one byte chunk, as produced by
`new TextDecoder().decode(chunk)` in handleStreamingResponse (line 993). -/
abbrev Chunk := List Char

/-- JS `String.prototype.split` with a newline separator: every newline
character separates segments and empty segments are kept (for example
splitting "a\n" gives ["a", ""]).  Mirrors `text.split('\n')` at line 994
of ChatPage.tsx. -/
def splitOnNL : List Char → List (List Char)
  | [] => [[]]
  | c :: cs =>
    if c = '\n' then [] :: splitOnNL cs
    else
      match splitOnNL cs with
      | [] => [[c]]
      | l :: ls => (c :: l) :: ls

/-- The fields of a parsed stream payload that handleStreamingResponse
reads (lines 1002-1011): content, message, projectId, projectName and
matchReason. -/
structure StreamData where
  content : Option (List Char)
  message : Option (List Char)
  projectId : Option Nat
  projectName : Option (List Char)
  matchReason : Option (List Char)
deriving DecidableEq

/-- JS truthiness of an optional string (undefined and "" are falsy). -/
def jsTruthyStr : Option (List Char) → Bool
  | some s => !s.isEmpty
  | none => false

/-- JS truthiness of an optional number (undefined and 0 are falsy). -/
def jsTruthyNum : Option Nat → Bool
  | some n => n != 0
  | none => false

/-- The fixed marker that makes a line a meaningful event
(`line.startsWith('data: ')`, line 997). -/
def dataMark : List Char := "data: ".data

/-- The project info captured from progress events (lines 1003-1007). -/
structure ProgressInfo where
  id : Nat
  name : Option (List Char)
  matchReason : Option (List Char)
deriving DecidableEq

/-- The mutable locals of the read loop in handleStreamingResponse
(lines 986-987): `accumulatedContent` and `lastProjectInfo`. -/
structure LoopState where
  accumulatedContent : List Char
  lastProjectInfo : Option ProgressInfo
deriving DecidableEq

/-- The initial loop state (lines 986-987). -/
def initLoopState : LoopState := ⟨[], none⟩

/-- One iteration of the for-loop over lines (lines 996-1025),
parameterized by the JSON parser: on a "data: "-tagged line whose payload
parses, record progress info when message and projectId are truthy and
extend the accumulator when content is truthy; on any other line leave
the state unchanged (the catch at line 1022 swallows parse errors). -/
def processLine (parse : List Char → Option StreamData) (st : LoopState)
    (line : List Char) : LoopState :=
  if dataMark.isPrefixOf line then
    match parse (line.drop 6) with
    | some d =>
      let st1 :=
        if jsTruthyStr d.message && jsTruthyNum d.projectId then
          { st with lastProjectInfo := some ⟨d.projectId.getD 0, d.projectName, d.matchReason⟩ }
        else st
      if jsTruthyStr d.content then
        { st1 with accumulatedContent := st1.accumulatedContent ++ d.content.getD [] }
      else st1
    | none => st
  else st

/-- Processing of one decoded chunk (lines 993-1026): split the chunk text
on newlines and run the line handler over every piece.  There is no
carry-over buffer between chunks. -/
def processChunk (parse : List Char → Option StreamData) (st : LoopState)
    (chunk : Chunk) : LoopState :=
  (splitOnNL chunk).foldl (processLine parse) st

/-- The whole read loop of handleStreamingResponse (lines 989-1027) over
the sequence of decoded chunks. -/
def processChunks (parse : List Char → Option StreamData)
    (chunks : List Chunk) : LoopState :=
  chunks.foldl (processChunk parse) initLoopState

/-- Modelled from the spec: the content contributed by one logical line,
"every content field extracted from well-formed data:-prefixed JSON lines"
(spec sections 4.1 and 8); lines without the marker, unparsable payloads
and missing content fields contribute nothing. -/
def specLineContent (parse : List Char → Option StreamData)
    (line : List Char) : List Char :=
  if dataMark.isPrefixOf line then
    match parse (line.drop 6) with
    | some d => if jsTruthyStr d.content then d.content.getD [] else []
    | none => []
  else []

/-- Modelled from the spec: the final message content as section 8 states
it, namely the concatenation in receipt order of the contents of the
logical lines of the whole stream, independent of how chunk boundaries
split lines. -/
def specFinalContent (parse : List Char → Option StreamData)
    (chunks : List Chunk) : List Char :=
  ((splitOnNL chunks.flatten).map (specLineContent parse)).flatten

/-- JSON value of the concrete parser below: strings and naturals. -/
inductive JVal
  | str (s : List Char)
  | num (n : Nat)
deriving DecidableEq

/-- An opening brace character. -/
def lbrace : Char := Char.ofNat 123

/-- A closing brace character. -/
def rbrace : Char := Char.ofNat 125

/-- Reads the rest of a JSON string literal up to the closing quote
(escape sequences excluded: the stream payloads never carry them). -/
def takeStr : List Char → Option (List Char × List Char)
  | [] => none
  | c :: cs =>
    if c = '"' then some ([], cs)
    else if c = '\\' then none
    else
      match takeStr cs with
      | some (s, rest) => some (c :: s, rest)
      | none => none

/-- Reads a run of decimal digits as a natural number. -/
def takeNum (cs : List Char) : Option (Nat × List Char) :=
  let ds := cs.takeWhile Char.isDigit
  if ds.isEmpty then none
  else some (ds.foldl (fun n c => 10 * n + (c.toNat - 48)) 0, cs.drop ds.length)

/-- Parses the members of a flat JSON object after the opening brace:
quoted key, colon, string or number value, then a comma and more members
or the closing brace ending the input. -/
def parseMembers : Nat → List Char → Option (List (List Char × JVal))
  | 0, _ => none
  | fuel + 1, input =>
    match input with
    | '"' :: rest =>
      match takeStr rest with
      | some (k, ':' :: rest2) =>
        match rest2 with
        | '"' :: rest3 =>
          match takeStr rest3 with
          | some (v, ',' :: rest4) =>
            (parseMembers fuel rest4).map (fun ms => (k, JVal.str v) :: ms)
          | some (v, rest4) =>
            if rest4 = [rbrace] then some [(k, JVal.str v)] else none
          | none => none
        | _ =>
          match takeNum rest2 with
          | some (n, ',' :: rest4) =>
            (parseMembers fuel rest4).map (fun ms => (k, JVal.num n) :: ms)
          | some (n, rest4) =>
            if rest4 = [rbrace] then some [(k, JVal.num n)] else none
          | none => none
      | _ => none
    | _ => none

/-- Modelled from the spec: `JSON.parse` (the ECMAScript builtin invoked at
line 999, external to the repository) on the flat string/number objects
the stream carries; any other input is a parse error. -/
def jsonParseObj (cs : List Char) : Option (List (List Char × JVal)) :=
  match cs with
  | c :: rest =>
    if c = lbrace then
      if rest = [rbrace] then some []
      else parseMembers cs.length rest
    else none
  | [] => none

/-- The last binding of a key in a parsed object (JSON.parse keeps the
last duplicate). -/
def findField (ms : List (List Char × JVal)) (k : List Char) : Option JVal :=
  ((ms.filter (fun p => p.1 = k)).getLast?).map (fun p => p.2)

/-- A string-valued field of a parsed object. -/
def fieldStr (ms : List (List Char × JVal)) (k : List Char) : Option (List Char) :=
  match findField ms k with
  | some (JVal.str s) => some s
  | _ => none

/-- A number-valued field of a parsed object. -/
def fieldNum (ms : List (List Char × JVal)) (k : List Char) : Option Nat :=
  match findField ms k with
  | some (JVal.num n) => some n
  | _ => none

/-- Modelled from the spec: the concrete stand-in for `JSON.parse` used to
run the stream consumer on concrete inputs, reading the five fields the
loop consumes. -/
def jsonParse (cs : List Char) : Option StreamData :=
  (jsonParseObj cs).map (fun ms =>
    { content := fieldStr ms "content".data
      message := fieldStr ms "message".data
      projectId := fieldNum ms "projectId".data
      projectName := fieldStr ms "projectName".data
      matchReason := fieldStr ms "matchReason".data })

lemma splitOnNL_ne_nil (cs : List Char) : splitOnNL cs ≠ [] := by
  induction cs with
  | nil => simp [splitOnNL]
  | cons c cs ih =>
    by_cases hc : c = '\n'
    · simp [splitOnNL, hc]
    · cases h : splitOnNL cs with
      | nil => simp [splitOnNL, hc, h]
      | cons l ls => simp [splitOnNL, hc, h]

lemma splitOnNL_cons_nl (cs : List Char) :
    splitOnNL ('\n' :: cs) = [] :: splitOnNL cs := by
  simp [splitOnNL]

lemma splitOnNL_cons_of_cons (c : Char) (cs : List Char) (l : List Char)
    (ls : List (List Char)) (hs : splitOnNL cs = l :: ls) (hc : c ≠ '\n') :
    splitOnNL (c :: cs) = (c :: l) :: ls := by
  simp only [splitOnNL, if_neg hc, hs]

lemma two_le_splitOnNL_length (cs : List Char) (h : cs.getLast? = some '\n') :
    2 ≤ (splitOnNL cs).length := by
  induction cs with
  | nil => simp at h
  | cons c cs ih =>
    cases cs with
    | nil =>
      have hc : c = '\n' := by simpa using h
      subst hc
      simp [splitOnNL]
    | cons c2 cs2 =>
      have h' : (c2 :: cs2).getLast? = some '\n' := by
        rwa [List.getLast?_cons_cons] at h
      have h2 := ih h'
      by_cases hc : c = '\n'
      · subst hc
        rw [splitOnNL_cons_nl]
        simp only [List.length_cons]
        omega
      · cases hs : splitOnNL (c2 :: cs2) with
        | nil => exact absurd hs (splitOnNL_ne_nil _)
        | cons l ls =>
          rw [hs] at h2
          rw [splitOnNL_cons_of_cons c _ l ls hs hc]
          simpa using h2

lemma splitOnNL_append_endsNL (a : List Char) (h : a.getLast? = some '\n') :
    ∀ b, splitOnNL (a ++ b) = (splitOnNL a).dropLast ++ splitOnNL b := by
  induction a with
  | nil => simp at h
  | cons c cs ih =>
    intro b
    cases cs with
    | nil =>
      have hc : c = '\n' := by simpa using h
      subst hc
      simp [splitOnNL]
    | cons c2 cs2 =>
      have h' : (c2 :: cs2).getLast? = some '\n' := by
        rwa [List.getLast?_cons_cons] at h
      have h2 := two_le_splitOnNL_length _ h'
      cases hs : splitOnNL (c2 :: cs2) with
      | nil => exact absurd hs (splitOnNL_ne_nil _)
      | cons l ls =>
        cases ls with
        | nil => rw [hs] at h2; simp at h2
        | cons l2 ls2 =>
          by_cases hc : c = '\n'
          · subst hc
            rw [List.cons_append, splitOnNL_cons_nl, splitOnNL_cons_nl, ih h' b, hs,
              List.dropLast_cons₂, List.dropLast_cons₂]
            simp
          · have hrec : splitOnNL ((c2 :: cs2) ++ b) =
                (l :: ((l2 :: ls2).dropLast ++ splitOnNL b)) := by
              rw [ih h' b, hs, List.dropLast_cons₂, List.cons_append]
            rw [List.cons_append,
              splitOnNL_cons_of_cons c _ _ _ hrec hc,
              splitOnNL_cons_of_cons c _ _ _ hs hc,
              List.dropLast_cons₂, List.cons_append]

lemma processLine_nil (parse : List Char → Option StreamData) (st : LoopState) :
    processLine parse st [] = st := by
  have hispre : dataMark.isPrefixOf ([] : List Char) = false := by decide
  simp [processLine, hispre]

lemma foldl_processLine_endsNL (parse : List Char → Option StreamData)
    (a b : List Char) (st : LoopState) (h : a.getLast? = some '\n') :
    (splitOnNL (a ++ b)).foldl (processLine parse) st =
      (splitOnNL b).foldl (processLine parse)
        ((splitOnNL a).foldl (processLine parse) st) := by
  have hsplit0 := splitOnNL_append_endsNL a h []
  rw [List.append_nil] at hsplit0
  rw [splitOnNL_append_endsNL a h b, List.foldl_append]
  conv_rhs => rw [hsplit0]
  rw [List.foldl_append]
  simp [splitOnNL, processLine_nil]

lemma processChunks_foldl_joined (parse : List Char → Option StreamData) :
    ∀ (chunks : List Chunk) (st : LoopState),
      (∀ c ∈ chunks, c.getLast? = some '\n') →
      chunks.foldl (processChunk parse) st =
        (splitOnNL chunks.flatten).foldl (processLine parse) st := by
  intro chunks
  induction chunks with
  | nil =>
    intro st _
    simp [splitOnNL, processLine_nil]
  | cons c cs ih =>
    intro st h
    have hc := h c (by simp)
    have hcs : ∀ x ∈ cs, x.getLast? = some '\n' := fun x hx => h x (by simp [hx])
    simp only [List.foldl_cons, List.flatten_cons]
    rw [ih _ hcs, foldl_processLine_endsNL parse c cs.flatten st hc]
    rfl

lemma processLine_content (parse : List Char → Option StreamData)
    (st : LoopState) (l : List Char) :
    (processLine parse st l).accumulatedContent =
      st.accumulatedContent ++ specLineContent parse l := by
  unfold processLine specLineContent
  by_cases hpre : dataMark.isPrefixOf l
  · simp only [hpre, if_pos]
    cases hp : parse (l.drop 6) with
    | none => simp
    | some d =>
      by_cases hm : (jsTruthyStr d.message && jsTruthyNum d.projectId) = true
      · by_cases hcc : jsTruthyStr d.content = true
        · simp [hm, hcc]
        · simp [hm, hcc]
      · by_cases hcc : jsTruthyStr d.content = true
        · simp [hm, hcc]
        · simp [hm, hcc]
  · simp [hpre]

lemma foldl_processLine_content (parse : List Char → Option StreamData) :
    ∀ (lines : List (List Char)) (st : LoopState),
      (lines.foldl (processLine parse) st).accumulatedContent =
        st.accumulatedContent ++ (lines.map (specLineContent parse)).flatten := by
  intro lines
  induction lines with
  | nil => intro st; simp
  | cons l ls ih =>
    intro st
    simp only [List.foldl_cons, List.map_cons, List.flatten_cons]
    rw [ih, processLine_content, List.append_assoc]

/-- Claim C1 as stated is false on the code: the read loop splits each
decoded chunk on newlines separately with no carry between chunks
(lines 993-994), so a chunk boundary inside a `data: ` line loses that
line's content.  At the concrete input where the stream text
`data: \x7b"content":"a"\x7d\n` arrives split across two chunks, the loop
accumulates nothing while the line-based extraction of the spec yields
"a". -/
theorem c1_counterexample :
    (processChunks jsonParse
        [("data: \x7b\"con").data, ("tent\":\"a\"\x7d\n").data]).accumulatedContent ≠
      specFinalContent jsonParse
        [("data: \x7b\"con").data, ("tent\":\"a\"\x7d\n").data] := by decide

/-- Claim C1, amended: for every finite sequence of decoded chunks whose
boundaries do not split lines (every chunk ends in a newline), the final
accumulated content of the streaming message equals the concatenation, in
receipt order, of every content field extracted from well-formed
`data: `-prefixed JSON lines of the whole stream. -/
theorem c1_stream_content_concat (parse : List Char → Option StreamData)
    (chunks : List Chunk) (h : ∀ c ∈ chunks, c.getLast? = some '\n') :
    (processChunks parse chunks).accumulatedContent = specFinalContent parse chunks := by
  unfold processChunks specFinalContent
  rw [processChunks_foldl_joined parse chunks initLoopState h,
    foldl_processLine_content]
  rfl

/-- Witness for C1 amended: the spec's own two-chunk example reconstructs
"Sure, adding it now.". -/
theorem c1_stream_content_concat_witness :
    (∀ c ∈ [("data: \x7b\"content\":\"Sure, \"\x7d\n").data,
        ("data: \x7b\"content\":\"adding it now.\"\x7d\n").data],
      c.getLast? = some '\n') ∧
    (processChunks jsonParse
        [("data: \x7b\"content\":\"Sure, \"\x7d\n").data,
          ("data: \x7b\"content\":\"adding it now.\"\x7d\n").data]).accumulatedContent =
      "Sure, adding it now.".data := by
  refine ⟨by decide, ?_⟩
  rw [c1_stream_content_concat jsonParse _ (by decide)]
  decide

/-- A line the loop skips for content purposes: it does not carry the
`data: ` marker, or its payload is not valid JSON, or the parsed object
lacks a content field (lines 996-1025). -/
def skippedLine (parse : List Char → Option StreamData) (line : List Char) : Prop :=
  dataMark.isPrefixOf line = false ∨ parse (line.drop 6) = none ∨
    ∃ d, parse (line.drop 6) = some d ∧ d.content = none

lemma specLineContent_eq_nil (parse : List Char → Option StreamData)
    (line : List Char) (h : skippedLine parse line) :
    specLineContent parse line = [] := by
  unfold specLineContent
  rcases h with h | h | ⟨d, hd, hc⟩
  · simp [h]
  · by_cases hpre : dataMark.isPrefixOf line
    · simp [hpre, h]
    · simp [hpre]
  · by_cases hpre : dataMark.isPrefixOf line
    · simp [hpre, hd, hc, jsTruthyStr]
    · simp [hpre]

/-- Claim C5: a line without the `data: ` marker, or with an unparsable
payload, or whose JSON lacks a content field, contributes nothing to the
accumulated content, and the loop keeps processing the surrounding lines
exactly as if the skipped line were absent (so the stream read is never
aborted by such a line). -/
theorem c5_skipped_line_no_contribution (parse : List Char → Option StreamData)
    (st : LoopState) (pre post : List (List Char)) (line : List Char)
    (h : skippedLine parse line) :
    ((pre ++ line :: post).foldl (processLine parse) st).accumulatedContent =
      ((pre ++ post).foldl (processLine parse) st).accumulatedContent := by
  rw [List.foldl_append, List.foldl_append, List.foldl_cons,
    foldl_processLine_content, foldl_processLine_content,
    processLine_content, specLineContent_eq_nil parse line h, List.append_nil]

/-- Witness for C5: a markerless line between two content lines changes
nothing. -/
theorem c5_skipped_line_no_contribution_witness :
    skippedLine jsonParse "hello".data ∧
    (([("data: \x7b\"content\":\"x\"\x7d").data] ++ "hello".data ::
        [("data: \x7b\"content\":\"y\"\x7d").data]).foldl
          (processLine jsonParse) initLoopState).accumulatedContent =
      (([("data: \x7b\"content\":\"x\"\x7d").data] ++
        [("data: \x7b\"content\":\"y\"\x7d").data]).foldl
          (processLine jsonParse) initLoopState).accumulatedContent := by
  refine ⟨Or.inl (by decide), ?_⟩
  exact c5_skipped_line_no_contribution jsonParse initLoopState _ _ _
    (Or.inl (by decide))

/-- Project status as the Project interface declares it (line 32). -/
inductive ProjStatus
  | pending
  | building
  | ready
  | error
deriving DecidableEq

/-- The project record returned by GET /api/projects/:id, restricted to
the two fields pollProjectStatus reads (lines 494-507). -/
structure ProjResp where
  status : ProjStatus
  deploymentUrl : Option (List Char)
deriving DecidableEq

/-- One polling attempt's backend interaction: a project response, or a
rejected fetch (the catch at line 521). -/
inductive PollResp
  | ok (p : ProjResp)
  | fail
deriving DecidableEq

/-- How a run of pollProjectStatus ends (lines 494-529). -/
inductive PollOutcome
  | readyUrl (url : List Char)
  | redirectHome
  | buildFailed
  | tooLong
  | statusCheckFailed
  | noMoreResponses
deriving DecidableEq

/-- The recursive poll closure of pollProjectStatus (lines 484-531).
`attempts` counts the requests issued so far; each call consumes the next
backend response and the pair returned is the outcome together with the
total number of requests issued.  The response list running out is a
model artifact (noMoreResponses); the theorems below keep the list long
enough that it is never reached. -/
def pollLoop (maxAttempts : Nat) : List PollResp → Nat → PollOutcome × Nat
  | [], attempts => (PollOutcome.noMoreResponses, attempts)
  | r :: rest, attempts =>
    let att := attempts + 1
    match r with
    | PollResp.ok p =>
      if p.status = ProjStatus.ready ∧ jsTruthyStr p.deploymentUrl = true then
        (PollOutcome.readyUrl (p.deploymentUrl.getD []), att)
      else if p.status = ProjStatus.error then
        if jsTruthyStr p.deploymentUrl = false then (PollOutcome.redirectHome, att)
        else (PollOutcome.buildFailed, att)
      else if maxAttempts ≤ att then (PollOutcome.tooLong, att)
      else pollLoop maxAttempts rest att
    | PollResp.fail =>
      if maxAttempts ≤ att then (PollOutcome.statusCheckFailed, att)
      else pollLoop maxAttempts rest att

/-- pollProjectStatus with its default budget of 30 attempts (line 481). -/
def pollProjectStatus (resps : List PollResp) : PollOutcome × Nat :=
  pollLoop 30 resps 0

lemma pollLoop_pending (resps : List PollResp)
    (hall : ∀ r ∈ resps, ∃ p, r = PollResp.ok p ∧ p.status = ProjStatus.pending) :
    ∀ attempts, attempts < 30 → 30 ≤ attempts + resps.length →
      pollLoop 30 resps attempts = (PollOutcome.tooLong, 30) := by
  induction resps with
  | nil =>
    intro attempts h1 h2
    simp at h2
    omega
  | cons r rest ih =>
    intro attempts h1 h2
    obtain ⟨p, rfl, hp⟩ := hall r (by simp)
    by_cases hstop : 30 ≤ attempts + 1
    · have : attempts + 1 = 30 := by omega
      simp [pollLoop, hp, hstop, this]
    · have hrest : ∀ r ∈ rest, ∃ p, r = PollResp.ok p ∧ p.status = ProjStatus.pending :=
        fun x hx => hall x (by simp [hx])
      have := ih hrest (attempts + 1) (by omega) (by simp at h2 ⊢; omega)
      simp [pollLoop, hp, hstop, this]

/-- Claim C4: with the attempt budget of 30, (a) on the status sequence
pending, pending, building, ready-with-url the poller stops exactly at
the ready entry having issued exactly 4 requests, whatever responses
would have followed; (b) on a sequence of only pending statuses it stops
with the too-long failure exactly when the attempt count reaches 30. -/
theorem c4_poll_budget (u1 u2 u3 : Option (List Char)) (u : List Char)
    (hu : u ≠ []) (rest : List PollResp) (resps : List PollResp)
    (hall : ∀ r ∈ resps, ∃ p, r = PollResp.ok p ∧ p.status = ProjStatus.pending)
    (hlen : 30 ≤ resps.length) :
    pollProjectStatus
        (PollResp.ok ⟨ProjStatus.pending, u1⟩ :: PollResp.ok ⟨ProjStatus.pending, u2⟩ ::
          PollResp.ok ⟨ProjStatus.building, u3⟩ ::
            PollResp.ok ⟨ProjStatus.ready, some u⟩ :: rest) =
      (PollOutcome.readyUrl u, 4) ∧
    pollProjectStatus resps = (PollOutcome.tooLong, 30) := by
  constructor
  · have htr : jsTruthyStr (some u) = true := by
      simp [jsTruthyStr, List.isEmpty_iff, hu]
    simp [pollProjectStatus, pollLoop, htr]
  · exact pollLoop_pending resps hall 0 (by omega) (by omega)

/-- Witness for C4 at a concrete url, a concrete continuation and the
all-pending sequence of length 30. -/
theorem c4_poll_budget_witness :
    ("https://x".data ≠ ([] : List Char)) ∧
    (∀ r ∈ List.replicate 30 (PollResp.ok ⟨ProjStatus.pending, none⟩),
      ∃ p, r = PollResp.ok p ∧ p.status = ProjStatus.pending) ∧
    30 ≤ (List.replicate 30 (PollResp.ok ⟨ProjStatus.pending, none⟩)).length ∧
    (pollProjectStatus
        (PollResp.ok ⟨ProjStatus.pending, none⟩ :: PollResp.ok ⟨ProjStatus.pending, none⟩ ::
          PollResp.ok ⟨ProjStatus.building, none⟩ ::
            PollResp.ok ⟨ProjStatus.ready, some "https://x".data⟩ :: [PollResp.fail]) =
      (PollOutcome.readyUrl "https://x".data, 4) ∧
    pollProjectStatus (List.replicate 30 (PollResp.ok ⟨ProjStatus.pending, none⟩)) =
      (PollOutcome.tooLong, 30)) := by
  refine ⟨by decide, ?_, by decide, ?_⟩
  · intro r hr
    have := List.eq_of_mem_replicate hr
    subst this
    exact ⟨_, rfl, rfl⟩
  · refine c4_poll_budget none none none "https://x".data (by decide) [PollResp.fail] _ ?_ (by decide)
    intro r hr
    have := List.eq_of_mem_replicate hr
    subst this
    exact ⟨_, rfl, rfl⟩

/-- Message roles (Message interface, line 40). -/
inductive MsgType
  | user
  | assistant
  | system
deriving DecidableEq

/-- A chat message (Message interface, lines 37-43); an absent
isStreaming field is modelled as false. -/
structure Message where
  id : List Char
  content : List Char
  type : MsgType
  timestamp : Nat
  isStreaming : Bool
deriving DecidableEq

/-- The setMessages updates the page performs, in issue order: plain
append, content rewrite of the message with a given id (line 1014),
clearing the streaming flag of the message with a given id (line 1040),
and removal by id (line 1055). -/
inductive MsgOp
  | append (m : Message)
  | updateContent (id : List Char) (c : List Char)
  | clearStreaming (id : List Char)
  | removeId (id : List Char)
deriving DecidableEq

/-- Application of one setMessages update to the message list. -/
def applyOp (ms : List Message) : MsgOp → List Message
  | MsgOp.append m => ms ++ [m]
  | MsgOp.updateContent i c =>
      ms.map (fun m => if m.id = i then { m with content := c } else m)
  | MsgOp.clearStreaming i =>
      ms.map (fun m => if m.id = i then { m with isStreaming := false } else m)
  | MsgOp.removeId i => ms.filter (fun m => decide (m.id ≠ i))

/-- Application of a sequence of setMessages updates, first issued first. -/
def applyOps (ms : List Message) (ops : List MsgOp) : List Message :=
  ops.foldl applyOp ms

/-- The id of the streaming placeholder: `streaming-` followed by
Date.now() (line 939). -/
def streamingMessageId (now : Nat) : List Char :=
  ("streaming-" ++ toString now).data

/-- The empty assistant placeholder appended before the stream request is
sent (lines 938-946). -/
def streamingPlaceholder (now : Nat) : Message :=
  ⟨streamingMessageId now, [], MsgType.assistant, now, true⟩

/-- The setMessages calls issued while handling one line of the read loop
(lines 1010-1021): when the payload carries truthy content the streaming
message is rewritten with the extended accumulator, otherwise none. -/
def lineOps (parse : List Char → Option StreamData) (sid : List Char)
    (st : LoopState) (line : List Char) : List MsgOp :=
  if dataMark.isPrefixOf line then
    match parse (line.drop 6) with
    | some d =>
      if jsTruthyStr d.content then
        [MsgOp.updateContent sid (st.accumulatedContent ++ d.content.getD [])]
      else []
    | none => []
  else []

/-- The setMessages calls issued over a list of lines, threading the loop
state exactly as processLine does. -/
def linesOps (parse : List Char → Option StreamData) (sid : List Char) :
    LoopState → List (List Char) → List MsgOp
  | _, [] => []
  | st, l :: ls =>
      lineOps parse sid st l ++ linesOps parse sid (processLine parse st l) ls

/-- The setMessages calls issued by the whole read loop over the decoded
chunks (lines 989-1027). -/
def chunksOps (parse : List Char → Option StreamData) (sid : List Char) :
    LoopState → List Chunk → List MsgOp
  | _, [] => []
  | st, c :: cs =>
      linesOps parse sid st (splitOnNL c) ++
        chunksOps parse sid (processChunk parse st c) cs

/-- The message-list updates of a successful run of
handleStreamingResponse: placeholder append (line 946), the per-content
updates of the read loop, then the finalization clearing the streaming
flag (lines 1040-1046). -/
def streamSuccessOps (parse : List Char → Option StreamData) (now : Nat)
    (chunks : List Chunk) : List MsgOp :=
  MsgOp.append (streamingPlaceholder now) ::
    (chunksOps parse (streamingMessageId now) initLoopState chunks ++
      [MsgOp.clearStreaming (streamingMessageId now)])

/-- The message-list updates of a run of handleStreamingResponse whose
stream threw after the given chunks were processed: the catch block's
filter (line 1056) references `streamingMessage`, a const declared inside
the try block (line 938) and out of scope in the catch block, so the
removal updater throws when applied and neither the removal nor the
queued error append reaches the message list. -/
def streamErrorOps (parse : List Char → Option StreamData) (now : Nat)
    (chunks : List Chunk) : List MsgOp :=
  MsgOp.append (streamingPlaceholder now) ::
    chunksOps parse (streamingMessageId now) initLoopState chunks

/-- A submit cycle that reaches the streaming path and completes: the user
message append of handleSubmit (line 1221) followed by the streaming
run. -/
def submitStreamSuccessOps (parse : List Char → Option StreamData)
    (now : Nat) (chunks : List Chunk) (userMsg : Message) : List MsgOp :=
  MsgOp.append userMsg :: streamSuccessOps parse now chunks

/-- A submit cycle whose streaming run threw mid-stream. -/
def submitStreamErrorOps (parse : List Char → Option StreamData)
    (now : Nat) (chunks : List Chunk) (userMsg : Message) : List MsgOp :=
  MsgOp.append userMsg :: streamErrorOps parse now chunks

/-- The lexical scope chain visible at line 1056, inside the catch block
of handleStreamingResponse, innermost frame first: the catch binding, the
locals the catch block declares, the function parameters, and the
component-level declarations of ChatPage.  `streamingMessage` is declared
by a const inside the try block (line 938), which is a sibling block the
catch does not inherit from. -/
def catchScopeChain : List (List String) :=
  [["error"],
   ["errorMessage"],
   ["currentPrompt", "currentSessionId"],
   ["context", "value", "navigate", "messages", "setMessages", "prompt",
    "setPrompt", "isLoading", "setIsLoading", "previewUrl", "setPreviewUrl",
    "error", "setError", "projectStatus", "setProjectStatus", "sessionId",
    "setSessionId", "currentSummary", "setCurrentSummary",
    "conversationStats", "setConversationStats", "isStreamingResponse",
    "setIsStreamingResponse", "hasSessionSupport", "setHasSessionSupport",
    "isServerHealthy", "setIsServerHealthy", "isRetrying", "setIsRetrying",
    "currentProject", "setCurrentProject", "buildSteps", "setBuildSteps",
    "currentBuildStep", "setCurrentBuildStep", "showBuildProgress",
    "setShowBuildProgress", "currentProjectInfo", "setCurrentProjectInfo",
    "hasInitialized", "isGenerating", "currentProjectId", "messagesEndRef",
    "messageCountRef", "sessionInitialized", "projectLoaded",
    "healthCheckDone", "buildProgressInterval", "location", "navPrompt",
    "projectId", "existingProject", "initialSessionId", "baseUrl"]]

/-- The scope chain visible inside the try block of
handleStreamingResponse (lines 934-1049), where `streamingMessage` is
declared together with the other try-local consts. -/
def tryScopeChain : List (List String) :=
  ["streamingMessage", "deployedUrl", "userId", "response", "reader",
    "accumulatedContent", "lastProjectInfo"] :: catchScopeChain.drop 2

/-- JS lexical name resolution over a scope chain. -/
def resolveName (scopes : List (List String)) (n : String) : Bool :=
  scopes.any (fun f => f.contains n)

/-- Claim C2 names the intended behavior, but the code cannot perform it:
the catch block's removal filter at line 1056 refers to
`streamingMessage`, which resolves in the try block's scope but not in
the catch block's scope chain, so the error path throws a ReferenceError
(TypeScript rejects the reference as TS2304) instead of removing the
placeholder and appending one error message. -/
theorem c2_catch_scope_bug :
    resolveName catchScopeChain "streamingMessage" = false ∧
    resolveName tryScopeChain "streamingMessage" = true := by decide

/-- Number of messages whose streaming flag is set. -/
def streamingCount (ms : List Message) : Nat :=
  ms.countP (fun m => m.isStreaming)

lemma streamingCount_append_single (ms : List Message) (m : Message) :
    streamingCount (ms ++ [m]) =
      streamingCount ms + (if m.isStreaming then 1 else 0) := by
  simp [streamingCount, List.countP_append, List.countP_cons]

lemma streamingCount_map_eq (f : Message → Message)
    (h : ∀ m, (f m).isStreaming = m.isStreaming) :
    ∀ ms : List Message, streamingCount (ms.map f) = streamingCount ms := by
  intro ms
  induction ms with
  | nil => rfl
  | cons m rest ih =>
    simp only [List.map_cons, streamingCount, List.countP_cons] at ih ⊢
    rw [ih, h m]

lemma streamingCount_map_le (f : Message → Message)
    (h : ∀ m, (f m).isStreaming = true → m.isStreaming = true) :
    ∀ ms : List Message, streamingCount (ms.map f) ≤ streamingCount ms := by
  intro ms
  induction ms with
  | nil => exact Nat.le_refl _
  | cons m rest ih =>
    simp only [List.map_cons, streamingCount, List.countP_cons] at ih ⊢
    by_cases hf : (f m).isStreaming = true
    · rw [if_pos hf, if_pos (h m hf)]
      omega
    · rw [if_neg hf]
      have : (0 : Nat) ≤ if m.isStreaming = true then 1 else 0 := Nat.zero_le _
      omega

lemma streamingCount_update (ms : List Message) (i c : List Char) :
    streamingCount (applyOp ms (MsgOp.updateContent i c)) = streamingCount ms := by
  show streamingCount (ms.map _) = streamingCount ms
  refine streamingCount_map_eq _ (fun m => ?_) ms
  by_cases hm : m.id = i <;> simp [hm]

lemma streamingCount_clear_le (ms : List Message) (i : List Char) :
    streamingCount (applyOp ms (MsgOp.clearStreaming i)) ≤ streamingCount ms := by
  show streamingCount (ms.map _) ≤ streamingCount ms
  refine streamingCount_map_le _ (fun m hf => ?_) ms
  by_cases hm : m.id = i
  · simp [hm] at hf
  · simpa [hm] using hf

/-- Every op emitted by the read loop is a content update keyed on the
placeholder id. -/
lemma lineOps_shape (parse : List Char → Option StreamData) (sid : List Char)
    (st : LoopState) (line : List Char) :
    ∀ op ∈ lineOps parse sid st line, ∃ c, op = MsgOp.updateContent sid c := by
  unfold lineOps
  by_cases hpre : dataMark.isPrefixOf line
  · simp only [hpre, if_pos]
    cases hp : parse (line.drop 6) with
    | none => simp
    | some d =>
      by_cases hc : jsTruthyStr d.content = true
      · simp [hc]
      · simp [hc]
  · simp [hpre]

lemma linesOps_shape (parse : List Char → Option StreamData) (sid : List Char) :
    ∀ (lines : List (List Char)) (st : LoopState),
      ∀ op ∈ linesOps parse sid st lines, ∃ c, op = MsgOp.updateContent sid c := by
  intro lines
  induction lines with
  | nil => intro st op hop; simp [linesOps] at hop
  | cons l ls ih =>
    intro st op hop
    simp only [linesOps, List.mem_append] at hop
    rcases hop with hop | hop
    · exact lineOps_shape parse sid st l op hop
    · exact ih _ op hop

lemma chunksOps_shape (parse : List Char → Option StreamData) (sid : List Char) :
    ∀ (chunks : List Chunk) (st : LoopState),
      ∀ op ∈ chunksOps parse sid st chunks, ∃ c, op = MsgOp.updateContent sid c := by
  intro chunks
  induction chunks with
  | nil => intro st op hop; simp [chunksOps] at hop
  | cons c cs ih =>
    intro st op hop
    simp only [chunksOps, List.mem_append] at hop
    rcases hop with hop | hop
    · exact linesOps_shape parse sid _ st op hop
    · exact ih _ op hop

/-- Along a run of content updates followed by the optional finalize, the
streaming count never grows. -/
lemma scanl_updates_then_count (i : List Char) :
    ∀ (ops : List MsgOp),
      (∀ op ∈ ops, ∃ j c, op = MsgOp.updateContent j c) →
      ∀ (ms : List Message) (s : List Message),
        s ∈ List.scanl applyOp ms (ops ++ [MsgOp.clearStreaming i]) →
        streamingCount s ≤ streamingCount ms := by
  intro ops
  induction ops with
  | nil =>
    intro _ ms s hs
    simp only [List.nil_append, List.scanl_cons, List.scanl_nil,
      List.singleton_append, List.mem_cons, List.mem_singleton,
      List.not_mem_nil, or_false] at hs
    rcases hs with rfl | rfl
    · exact Nat.le_refl _
    · exact streamingCount_clear_le ms i
  | cons op rest ih =>
    intro h ms s hs
    obtain ⟨j, c, rfl⟩ := h op (by simp)
    simp only [List.cons_append, List.scanl_cons, List.mem_cons] at hs
    rcases hs with rfl | hs
    · exact Nat.le_refl _
    · have hrest : ∀ op ∈ rest, ∃ j c, op = MsgOp.updateContent j c :=
        fun x hx => h x (by simp [hx])
      have := ih hrest _ s hs
      rwa [streamingCount_update] at this

/-- Along a run of content updates alone, the streaming count is
constant. -/
lemma scanl_updates_count :
    ∀ (ops : List MsgOp),
      (∀ op ∈ ops, ∃ j c, op = MsgOp.updateContent j c) →
      ∀ (ms : List Message) (s : List Message),
        s ∈ List.scanl applyOp ms ops →
        streamingCount s ≤ streamingCount ms := by
  intro ops
  induction ops with
  | nil =>
    intro _ ms s hs
    simp only [List.scanl_nil, List.mem_singleton] at hs
    subst hs
    exact Nat.le_refl _
  | cons op rest ih =>
    intro h ms s hs
    obtain ⟨j, c, rfl⟩ := h op (by simp)
    simp only [List.scanl_cons, List.singleton_append, List.mem_cons] at hs
    rcases hs with rfl | hs
    · exact Nat.le_refl _
    · have hrest : ∀ op ∈ rest, ∃ j c, op = MsgOp.updateContent j c :=
        fun x hx => h x (by simp [hx])
      have := ih hrest _ s hs
      rwa [streamingCount_update] at this

/-- Claim C3: starting a submit cycle from a message list with no
streaming message, every intermediate message list of the cycle, through
placeholder creation, the per-chunk content updates, finalization, and
the truncated error path, has at most one message with the streaming flag
set. -/
theorem c3_at_most_one_streaming (parse : List Char → Option StreamData)
    (now : Nat) (chunks : List Chunk) (userMsg : Message)
    (ms0 : List Message) (h0 : streamingCount ms0 = 0)
    (huser : userMsg.isStreaming = false) :
    (∀ s ∈ List.scanl applyOp ms0
        (submitStreamSuccessOps parse now chunks userMsg),
      streamingCount s ≤ 1) ∧
    (∀ s ∈ List.scanl applyOp ms0
        (submitStreamErrorOps parse now chunks userMsg),
      streamingCount s ≤ 1) := by
  have huserCount : streamingCount (applyOp ms0 (MsgOp.append userMsg)) = 0 := by
    simp only [applyOp]
    rw [streamingCount_append_single, huser, h0]
    simp
  have hphCount :
      streamingCount (applyOp (applyOp ms0 (MsgOp.append userMsg))
        (MsgOp.append (streamingPlaceholder now))) = 1 := by
    simp only [applyOp]
    rw [streamingCount_append_single]
    have : streamingCount (applyOp ms0 (MsgOp.append userMsg)) = 0 := huserCount
    simp only [applyOp] at this
    rw [this]
    simp [streamingPlaceholder]
  have hshape := chunksOps_shape parse (streamingMessageId now) chunks initLoopState
  have hshape' : ∀ op ∈ chunksOps parse (streamingMessageId now) initLoopState chunks,
      ∃ j c, op = MsgOp.updateContent j c := by
    intro op hop
    obtain ⟨c, rfl⟩ := hshape op hop
    exact ⟨_, _, rfl⟩
  constructor
  · intro s hs
    simp only [submitStreamSuccessOps, streamSuccessOps, List.scanl_cons,
      List.singleton_append, List.mem_cons] at hs
    rcases hs with rfl | hs
    · omega
    rcases hs with rfl | hs
    · rw [huserCount]; omega
    · have := scanl_updates_then_count (streamingMessageId now) _ hshape' _ s hs
      rw [hphCount] at this
      exact this
  · intro s hs
    simp only [submitStreamErrorOps, streamErrorOps, List.scanl_cons,
      List.singleton_append, List.mem_cons] at hs
    rcases hs with rfl | hs
    · omega
    rcases hs with rfl | hs
    · rw [huserCount]; omega
    · have := scanl_updates_count _ hshape' _ s hs
      rw [hphCount] at this
      exact this

/-- Witness for C3 at a concrete cycle: empty starting list, one user
message, one content chunk. -/
theorem c3_at_most_one_streaming_witness :
    streamingCount [] = 0 ∧
    (Message.mk "1".data "hi".data MsgType.user 1 false).isStreaming = false ∧
    ((∀ s ∈ List.scanl applyOp []
        (submitStreamSuccessOps jsonParse 1 [("data: \x7b\"content\":\"ok\"\x7d\n").data]
          (Message.mk "1".data "hi".data MsgType.user 1 false)),
      streamingCount s ≤ 1) ∧
    (∀ s ∈ List.scanl applyOp []
        (submitStreamErrorOps jsonParse 1 [("data: \x7b\"content\":\"ok\"\x7d\n").data]
          (Message.mk "1".data "hi".data MsgType.user 1 false)),
      streamingCount s ≤ 1)) := by
  refine ⟨rfl, rfl, ?_⟩
  exact c3_at_most_one_streaming jsonParse 1 _ _ [] rfl rfl

/-- The predicate used by every id-keyed setMessages update
(`msg.id === streamingMessage.id`). -/
def idPred (i : List Char) : Message → Bool := fun m => decide (m.id = i)

/-- The content of the first message carrying the given id. -/
def msgContentById (ms : List Message) (i : List Char) : Option (List Char) :=
  (ms.find? (idPred i)).map Message.content

/-- The streaming flag of the first message carrying the given id. -/
def msgStreamingById (ms : List Message) (i : List Char) : Option Bool :=
  (ms.find? (idPred i)).map Message.isStreaming

lemma isSome_find?_of_content (ms : List Message) (i v : List Char)
    (h : msgContentById ms i = some v) : (ms.find? (idPred i)).isSome := by
  unfold msgContentById at h
  cases hf : ms.find? (idPred i) with
  | none => rw [hf] at h; simp at h
  | some m => simp

lemma find?_map_id_preserving (f : Message → Message)
    (hid : ∀ m, (f m).id = m.id) (i : List Char) :
    ∀ ms : List Message,
      (ms.map f).find? (idPred i) = (ms.find? (idPred i)).map f := by
  intro ms
  induction ms with
  | nil => rfl
  | cons m rest ih =>
    by_cases hm : idPred i m = true
    · have hfm : idPred i (f m) = true := by
        simp only [idPred, hid] at hm ⊢
        exact hm
      rw [List.map_cons, List.find?_cons_of_pos _ hfm, List.find?_cons_of_pos _ hm]
      rfl
    · have hfm : ¬ idPred i (f m) = true := by
        simp only [idPred, hid] at hm ⊢
        exact hm
      rw [List.map_cons, List.find?_cons_of_neg _ hfm, List.find?_cons_of_neg _ hm, ih]

lemma find?_append_or (p : Message → Bool) :
    ∀ (ms1 ms2 : List Message),
      (ms1 ++ ms2).find? p = ((ms1.find? p).or (ms2.find? p)) := by
  intro ms1 ms2
  induction ms1 with
  | nil => simp [Option.or]
  | cons m rest ih =>
    by_cases hm : p m = true
    · rw [List.cons_append, List.find?_cons_of_pos _ hm, List.find?_cons_of_pos _ hm]
      rfl
    · rw [List.cons_append, List.find?_cons_of_neg _ hm, List.find?_cons_of_neg _ hm, ih]

lemma find?_filter_keep (q : Message → Bool) (i : List Char)
    (hkeepAll : ∀ m, m.id = i → q m = true) :
    ∀ ms : List Message,
      (ms.filter q).find? (idPred i) = ms.find? (idPred i) := by
  intro ms
  induction ms with
  | nil => rfl
  | cons m rest ih =>
    by_cases hq : q m = true
    · rw [List.filter_cons_of_pos hq]
      by_cases hp : idPred i m = true
      · rw [List.find?_cons_of_pos _ hp, List.find?_cons_of_pos _ hp]
      · rw [List.find?_cons_of_neg _ hp, List.find?_cons_of_neg _ hp, ih]
    · have hp : ¬ idPred i m = true := by
        simp only [idPred, decide_eq_true_eq]
        intro hm
        exact hq (hkeepAll m hm)
      rw [List.filter_cons_of_neg hq, List.find?_cons_of_neg _ hp, ih]

/-- An op that cannot touch the content of the message with id `i`. -/
def contentSafeFor (i : List Char) : MsgOp → Prop
  | MsgOp.append m => m.id ≠ i
  | MsgOp.updateContent j _ => j ≠ i
  | MsgOp.clearStreaming _ => True
  | MsgOp.removeId j => j ≠ i

lemma msgContentById_applyOp_safe (i : List Char) (op : MsgOp)
    (ms : List Message) (h : contentSafeFor i op) :
    msgContentById (applyOp ms op) i = msgContentById ms i := by
  cases op with
  | append m =>
    have hm : m.id ≠ i := h
    show msgContentById (ms ++ [m]) i = msgContentById ms i
    unfold msgContentById
    rw [find?_append_or]
    have hp : ¬ idPred i m = true := by simp [idPred, hm]
    have hnone : ([m] : List Message).find? (idPred i) = none := by
      rw [List.find?_cons_of_neg _ hp]
      rfl
    rw [hnone]
    cases ms.find? (idPred i) <;> rfl
  | updateContent j c =>
    have hj : j ≠ i := h
    show msgContentById (ms.map _) i = msgContentById ms i
    unfold msgContentById
    rw [find?_map_id_preserving _ (fun m => by by_cases hm : m.id = j <;> simp [hm]) i ms]
    cases hf : ms.find? (idPred i) with
    | none => rfl
    | some m =>
      have hmi : m.id = i := by simpa [idPred] using List.find?_some hf
      have hmj : ¬ m.id = j := by rw [hmi]; exact fun he => hj he.symm
      simp [hmj]
  | clearStreaming j =>
    show msgContentById (ms.map _) i = msgContentById ms i
    unfold msgContentById
    rw [find?_map_id_preserving _ (fun m => by by_cases hm : m.id = j <;> simp [hm]) i ms]
    cases hf : ms.find? (idPred i) with
    | none => rfl
    | some m => by_cases hmj : m.id = j <;> simp [hmj]
  | removeId j =>
    have hj : j ≠ i := h
    show msgContentById (ms.filter _) i = msgContentById ms i
    unfold msgContentById
    rw [find?_filter_keep _ i (fun m hm => by
      simp only [decide_eq_true_eq, hm]
      exact fun he => hj he.symm) ms]

lemma msgContentById_applyOps_safe (i : List Char) :
    ∀ (ops : List MsgOp) (ms : List Message),
      (∀ op ∈ ops, contentSafeFor i op) →
      msgContentById (applyOps ms ops) i = msgContentById ms i := by
  intro ops
  induction ops with
  | nil => intro ms _; rfl
  | cons op rest ih =>
    intro ms h
    show msgContentById (applyOps (applyOp ms op) rest) i = _
    rw [ih _ (fun x hx => h x (by simp [hx])),
      msgContentById_applyOp_safe i op ms (h op (by simp))]

lemma msgStreamingById_update (ms : List Message) (i j c : List Char) :
    msgStreamingById (applyOp ms (MsgOp.updateContent j c)) i =
      msgStreamingById ms i := by
  show msgStreamingById (ms.map _) i = msgStreamingById ms i
  unfold msgStreamingById
  rw [find?_map_id_preserving _ (fun m => by by_cases hm : m.id = j <;> simp [hm]) i ms]
  cases hf : ms.find? (idPred i) with
  | none => rfl
  | some m => by_cases hmj : m.id = j <;> simp [hmj]

lemma msgContentById_update_self (ms : List Message) (i c : List Char)
    (h : (ms.find? (idPred i)).isSome) :
    msgContentById (applyOp ms (MsgOp.updateContent i c)) i = some c := by
  show msgContentById (ms.map _) i = some c
  unfold msgContentById
  rw [find?_map_id_preserving _ (fun m => by by_cases hm : m.id = i <;> simp [hm]) i ms]
  cases hf : ms.find? (idPred i) with
  | none => rw [hf] at h; simp at h
  | some m =>
    have hmi : m.id = i := by simpa [idPred] using List.find?_some hf
    simp [hmi]

lemma msgStreamingById_clear_self (ms : List Message) (i : List Char)
    (h : (ms.find? (idPred i)).isSome) :
    msgStreamingById (applyOp ms (MsgOp.clearStreaming i)) i = some false := by
  show msgStreamingById (ms.map _) i = some false
  unfold msgStreamingById
  rw [find?_map_id_preserving _ (fun m => by by_cases hm : m.id = i <;> simp [hm]) i ms]
  cases hf : ms.find? (idPred i) with
  | none => rw [hf] at h; simp at h
  | some m =>
    have hmi : m.id = i := by simpa [idPred] using List.find?_some hf
    simp [hmi]

lemma lineOps_step (parse : List Char → Option StreamData) (sid : List Char)
    (st : LoopState) (line : List Char) (ms : List Message)
    (h : msgContentById ms sid = some st.accumulatedContent) :
    msgContentById (applyOps ms (lineOps parse sid st line)) sid =
      some ((processLine parse st line).accumulatedContent) ∧
    msgStreamingById (applyOps ms (lineOps parse sid st line)) sid =
      msgStreamingById ms sid := by
  rw [processLine_content]
  unfold lineOps
  by_cases hpre : dataMark.isPrefixOf line
  · simp only [hpre, if_pos]
    cases hp : parse (line.drop 6) with
    | none =>
      have hspec : specLineContent parse line = [] := by
        unfold specLineContent
        simp [hpre, hp]
      rw [hspec, List.append_nil]
      exact ⟨h, rfl⟩
    | some d =>
      by_cases hc : jsTruthyStr d.content = true
      · simp only [hc, if_pos]
        have hspec : specLineContent parse line = d.content.getD [] := by
          unfold specLineContent
          simp [hpre, hp, hc]
        rw [hspec]
        constructor
        · exact msgContentById_update_self ms sid _
            (isSome_find?_of_content ms sid _ h)
        · exact msgStreamingById_update ms sid sid _
      · simp only [hc, if_neg, Bool.false_eq_true]
        have hspec : specLineContent parse line = [] := by
          unfold specLineContent
          simp [hpre, hp, hc]
        rw [hspec, List.append_nil]
        exact ⟨h, rfl⟩
  · have hspec : specLineContent parse line = [] := by
      unfold specLineContent
      simp [hpre]
    simp only [hpre, Bool.false_eq_true, if_false, hspec, List.append_nil]
    exact ⟨h, rfl⟩

lemma linesOps_cons (parse : List Char → Option StreamData) (sid : List Char)
    (st : LoopState) (l : List Char) (ls : List (List Char)) :
    linesOps parse sid st (l :: ls) =
      lineOps parse sid st l ++ linesOps parse sid (processLine parse st l) ls := rfl

lemma applyOps_append (ms : List Message) (ops1 ops2 : List MsgOp) :
    applyOps ms (ops1 ++ ops2) = applyOps (applyOps ms ops1) ops2 := by
  unfold applyOps
  rw [List.foldl_append]

lemma linesOps_run (parse : List Char → Option StreamData) (sid : List Char) :
    ∀ (lines : List (List Char)) (st : LoopState) (ms : List Message),
      msgContentById ms sid = some st.accumulatedContent →
      msgContentById (applyOps ms (linesOps parse sid st lines)) sid =
        some ((lines.foldl (processLine parse) st).accumulatedContent) ∧
      msgStreamingById (applyOps ms (linesOps parse sid st lines)) sid =
        msgStreamingById ms sid := by
  intro lines
  induction lines with
  | nil => intro st ms h; exact ⟨h, rfl⟩
  | cons l ls ih =>
    intro st ms h
    have hstep := lineOps_step parse sid st l ms h
    have hrec := ih (processLine parse st l)
      (applyOps ms (lineOps parse sid st l)) hstep.1
    rw [linesOps_cons, applyOps_append, List.foldl_cons]
    exact ⟨hrec.1, hrec.2.trans hstep.2⟩

lemma chunksOps_cons (parse : List Char → Option StreamData) (sid : List Char)
    (st : LoopState) (c : Chunk) (cs : List Chunk) :
    chunksOps parse sid st (c :: cs) =
      linesOps parse sid st (splitOnNL c) ++
        chunksOps parse sid (processChunk parse st c) cs := rfl

lemma chunksOps_run (parse : List Char → Option StreamData) (sid : List Char) :
    ∀ (chunks : List Chunk) (st : LoopState) (ms : List Message),
      msgContentById ms sid = some st.accumulatedContent →
      msgContentById (applyOps ms (chunksOps parse sid st chunks)) sid =
        some ((chunks.foldl (processChunk parse) st).accumulatedContent) ∧
      msgStreamingById (applyOps ms (chunksOps parse sid st chunks)) sid =
        msgStreamingById ms sid := by
  intro chunks
  induction chunks with
  | nil => intro st ms h; exact ⟨h, rfl⟩
  | cons c cs ih =>
    intro st ms h
    have hstep := linesOps_run parse sid (splitOnNL c) st ms h
    have hrec := ih (processChunk parse st c)
      (applyOps ms (linesOps parse sid st (splitOnNL c))) hstep.1
    rw [chunksOps_cons, applyOps_append, List.foldl_cons]
    exact ⟨hrec.1, hrec.2.trans hstep.2⟩

lemma streamSuccess_final (parse : List Char → Option StreamData) (now : Nat)
    (chunks : List Chunk) (ms0 : List Message)
    (h1 : ∀ m ∈ ms0, m.id ≠ streamingMessageId now) :
    msgContentById (applyOps ms0 (streamSuccessOps parse now chunks))
        (streamingMessageId now) =
      some ((processChunks parse chunks).accumulatedContent) ∧
    msgStreamingById (applyOps ms0 (streamSuccessOps parse now chunks))
        (streamingMessageId now) = some false := by
  have hbase_find : (ms0 ++ [streamingPlaceholder now]).find?
      (idPred (streamingMessageId now)) = some (streamingPlaceholder now) := by
    rw [find?_append_or]
    have hnone : ms0.find? (idPred (streamingMessageId now)) = none := by
      rw [List.find?_eq_none]
      intro m hm
      simp [idPred, h1 m hm]
    have hppred : idPred (streamingMessageId now) (streamingPlaceholder now) = true := by
      simp [idPred, streamingPlaceholder]
    rw [hnone, List.find?_cons_of_pos _ hppred]
    rfl
  have hbaseC : msgContentById (ms0 ++ [streamingPlaceholder now])
      (streamingMessageId now) = some initLoopState.accumulatedContent := by
    unfold msgContentById
    rw [hbase_find]
    rfl
  have hbaseS : msgStreamingById (ms0 ++ [streamingPlaceholder now])
      (streamingMessageId now) = some true := by
    unfold msgStreamingById
    rw [hbase_find]
    rfl
  have hrun := chunksOps_run parse (streamingMessageId now) chunks initLoopState
    (ms0 ++ [streamingPlaceholder now]) hbaseC
  have happly : applyOps ms0 (streamSuccessOps parse now chunks) =
      applyOp (applyOps (ms0 ++ [streamingPlaceholder now])
        (chunksOps parse (streamingMessageId now) initLoopState chunks))
        (MsgOp.clearStreaming (streamingMessageId now)) := by
    unfold streamSuccessOps applyOps
    rw [List.foldl_cons, List.foldl_append, List.foldl_cons, List.foldl_nil]
    rfl
  constructor
  · rw [happly, msgContentById_applyOp_safe _ _ _ (by simp [contentSafeFor]), hrun.1]
    rfl
  · rw [happly]
    exact msgStreamingById_clear_self _ _
      (isSome_find?_of_content _ _ _ hrun.1)

/-- Claim C6: when the stream completes without error the placeholder's
streaming flag is cleared and its content equals the content accumulated
from the stream; afterwards no message-list operation of a later submit
cycle, whose fresh ids differ from this placeholder's, changes that
content again. -/
theorem c6_finalize_immutable (parse parse2 : List Char → Option StreamData)
    (now now2 : Nat) (chunks chunks2 : List Chunk) (userMsg2 : Message)
    (ms0 : List Message)
    (h1 : ∀ m ∈ ms0, m.id ≠ streamingMessageId now)
    (h2 : streamingMessageId now2 ≠ streamingMessageId now)
    (h3 : userMsg2.id ≠ streamingMessageId now) :
    msgStreamingById (applyOps ms0 (streamSuccessOps parse now chunks))
        (streamingMessageId now) = some false ∧
    msgContentById (applyOps ms0 (streamSuccessOps parse now chunks))
        (streamingMessageId now) =
      some ((processChunks parse chunks).accumulatedContent) ∧
    msgContentById
        (applyOps (applyOps ms0 (streamSuccessOps parse now chunks))
          (submitStreamSuccessOps parse2 now2 chunks2 userMsg2))
        (streamingMessageId now) =
      msgContentById (applyOps ms0 (streamSuccessOps parse now chunks))
        (streamingMessageId now) ∧
    msgContentById
        (applyOps (applyOps ms0 (streamSuccessOps parse now chunks))
          (submitStreamErrorOps parse2 now2 chunks2 userMsg2))
        (streamingMessageId now) =
      msgContentById (applyOps ms0 (streamSuccessOps parse now chunks))
        (streamingMessageId now) := by
  have hfin := streamSuccess_final parse now chunks ms0 h1
  have hsafeSucc : ∀ op ∈ submitStreamSuccessOps parse2 now2 chunks2 userMsg2,
      contentSafeFor (streamingMessageId now) op := by
    intro op hop
    simp only [submitStreamSuccessOps, streamSuccessOps, List.mem_cons,
      List.mem_append, List.mem_singleton, List.not_mem_nil, or_false] at hop
    rcases hop with rfl | rfl | hop | rfl
    · exact h3
    · exact h2
    · obtain ⟨c, rfl⟩ :=
        chunksOps_shape parse2 (streamingMessageId now2) chunks2 initLoopState op hop
      exact h2
    · simp [contentSafeFor]
  have hsafeErr : ∀ op ∈ submitStreamErrorOps parse2 now2 chunks2 userMsg2,
      contentSafeFor (streamingMessageId now) op := by
    intro op hop
    simp only [submitStreamErrorOps, streamErrorOps, List.mem_cons] at hop
    rcases hop with rfl | rfl | hop
    · exact h3
    · exact h2
    · obtain ⟨c, rfl⟩ :=
        chunksOps_shape parse2 (streamingMessageId now2) chunks2 initLoopState op hop
      exact h2
  exact ⟨hfin.2, hfin.1,
    msgContentById_applyOps_safe _ _ _ hsafeSucc,
    msgContentById_applyOps_safe _ _ _ hsafeErr⟩

/-- Witness for C6 at a concrete first cycle (one content chunk) followed
by a concrete second cycle. -/
theorem c6_finalize_immutable_witness :
    (∀ m ∈ ([] : List Message), m.id ≠ streamingMessageId 1) ∧
    streamingMessageId 2 ≠ streamingMessageId 1 ∧
    (Message.mk "7".data "x".data MsgType.user 2 false).id ≠ streamingMessageId 1 ∧
    (msgStreamingById
        (applyOps [] (streamSuccessOps jsonParse 1 [("data: \x7b\"content\":\"hi\"\x7d\n").data]))
        (streamingMessageId 1) = some false ∧
      msgContentById
        (applyOps [] (streamSuccessOps jsonParse 1 [("data: \x7b\"content\":\"hi\"\x7d\n").data]))
        (streamingMessageId 1) =
        some ((processChunks jsonParse [("data: \x7b\"content\":\"hi\"\x7d\n").data]).accumulatedContent) ∧
      msgContentById
        (applyOps (applyOps [] (streamSuccessOps jsonParse 1 [("data: \x7b\"content\":\"hi\"\x7d\n").data]))
          (submitStreamSuccessOps jsonParse 2 []
            (Message.mk "7".data "x".data MsgType.user 2 false)))
        (streamingMessageId 1) =
        msgContentById
          (applyOps [] (streamSuccessOps jsonParse 1 [("data: \x7b\"content\":\"hi\"\x7d\n").data]))
          (streamingMessageId 1) ∧
      msgContentById
        (applyOps (applyOps [] (streamSuccessOps jsonParse 1 [("data: \x7b\"content\":\"hi\"\x7d\n").data]))
          (submitStreamErrorOps jsonParse 2 []
            (Message.mk "7".data "x".data MsgType.user 2 false)))
        (streamingMessageId 1) =
        msgContentById
          (applyOps [] (streamSuccessOps jsonParse 1 [("data: \x7b\"content\":\"hi\"\x7d\n").data]))
          (streamingMessageId 1)) := by
  refine ⟨by simp, by decide, by decide, ?_⟩
  exact c6_finalize_immutable jsonParse jsonParse 1 2
    [("data: \x7b\"content\":\"hi\"\x7d\n").data] []
    (Message.mk "7".data "x".data MsgType.user 2 false) []
    (by simp) (by decide) (by decide)

/-- The ASCII whitespace characters String.prototype.trim removes (the
Unicode extras never occur in the prompts considered here). -/
def jsWhitespaceChar (c : Char) : Bool :=
  c = ' ' || c = '\t' || c = '\n' || c = '\r' ||
    c = Char.ofNat 11 || c = Char.ofNat 12

/-- JS `String.prototype.trim`: drop whitespace from both ends. -/
def jsTrim (s : List Char) : List Char :=
  ((s.dropWhile jsWhitespaceChar).reverse.dropWhile jsWhitespaceChar).reverse

/-- The backend requests the embedded operations issue, with the payload
fields relevant to session identity. -/
inductive ApiCall
  | sessionCreate (projectId : Option Nat)
  | conversationMessages (sessionId : List Char) (role : MsgType) (content : List Char)
  | projectMessages (projectId : Nat) (sessionId : Option (List Char))
      (role : MsgType) (content : List Char)
  | modifyStream (sessionId : List Char) (prompt : List Char)
  | modify (sessionId : Option (List Char)) (prompt : List Char)
  | conversationHistory (sessionId : List Char)
  | conversationSummary (sessionId : List Char)
  | conversationStats (sessionId : List Char)
  | summaryUpdate (sessionId : List Char)
  | projectMessagesLoad (projectId : Nat)
  | generate (prompt : List Char) (projectId : Option Nat)
  | getProject (id : Nat)
  | putProject (id : Nat)
  | health
deriving DecidableEq

/-- The session identifier a request carries in its payload or query
string, when it carries one. -/
def callSessionId : ApiCall → Option (List Char)
  | ApiCall.conversationMessages s _ _ => some s
  | ApiCall.projectMessages _ s _ _ => s
  | ApiCall.modifyStream s _ => some s
  | ApiCall.modify s _ => s
  | ApiCall.conversationHistory s => some s
  | ApiCall.conversationSummary s => some s
  | ApiCall.conversationStats s => some s
  | ApiCall.summaryUpdate s => some s
  | _ => none

/-- The React state and refs initializeSession reads and writes:
sessionId, hasSessionSupport, and the sessionInitialized and
projectLoaded refs. -/
structure SessionState where
  sessionId : Option (List Char)
  hasSessionSupport : Bool
  sessionInitialized : Bool
  projectLoaded : Bool
deriving DecidableEq

/-- The outcome of POST /api/session/create: a session id, or a thrown
error (lines 552-559). -/
inductive CreateResult
  | ok (sid : List Char)
  | fail
deriving DecidableEq

/-- JS `a || b` on optional strings: the first truthy operand. -/
def jsOrStr (a b : Option (List Char)) : Option (List Char) :=
  if jsTruthyStr a then a else b

/-- The fallback identifier of line 563:
`projectId ? \`project-$\x7bprojectId\x7d\` : \`temp-$\x7bDate.now()\x7d\``. -/
def fallbackSessionId (projectId : Option Nat) (now : Nat) : List Char :=
  if jsTruthyNum projectId then
    ("project-" ++ toString (projectId.getD 0)).data
  else
    ("temp-" ++ toString now).data

/-- initializeSession (lines 539-599): takes the outcome the backend
would give a create call, the navigation state and the current time, and
returns the updated state, the returned session id and the backend calls
issued in order.  The history-loading condition at line 571 reads the
hasSessionSupport binding of the enclosing render closure, which a
setHasSessionSupport call inside the same run does not change, so the
condition uses the incoming state's value. -/
def initializeSession (createRes : CreateResult) (projectId : Option Nat)
    (initialSessionId : Option (List Char)) (now : Nat)
    (st : SessionState) : SessionState × Option (List Char) × List ApiCall :=
  if st.sessionInitialized = true then (st, st.sessionId, [])
  else
    let cur0 := jsOrStr initialSessionId st.sessionId
    let createStep :
        Option (List Char) × Option (List Char) × Bool × List ApiCall :=
      if jsTruthyStr cur0 = false then
        match createRes with
        | CreateResult.ok s =>
            (some s, some s, true, [ApiCall.sessionCreate projectId])
        | CreateResult.fail =>
            (some (fallbackSessionId projectId now),
              some (fallbackSessionId projectId now), false,
              [ApiCall.sessionCreate projectId])
      else (cur0, st.sessionId, st.hasSessionSupport, [])
    let cur := createStep.1
    let stateSid := createStep.2.1
    let support := createStep.2.2.1
    let createCalls := createStep.2.2.2
    let loadStep : List ApiCall × Bool :=
      if jsTruthyStr cur = true ∧ st.hasSessionSupport = true ∧
          ¬("temp-".data.isPrefixOf (cur.getD [])) ∧
          ¬("project-".data.isPrefixOf (cur.getD [])) then
        ([ApiCall.conversationHistory (cur.getD []),
          ApiCall.conversationSummary (cur.getD []),
          ApiCall.conversationStats (cur.getD [])], st.projectLoaded)
      else if jsTruthyNum projectId = true ∧ st.projectLoaded = false then
        ([ApiCall.projectMessagesLoad (projectId.getD 0)], true)
      else ([], st.projectLoaded)
    ({ sessionId := stateSid, hasSessionSupport := support,
       sessionInitialized := true, projectLoaded := loadStep.2 },
      cur, createCalls ++ loadStep.1)

/-- saveMessage (lines 1072-1107): the request issued for one chat turn,
session-based when session support is on and the id carries neither
fallback marker, project-based otherwise, and nothing without a
project id. -/
def saveMessageCalls (projectId : Option Nat) (sessionId : Option (List Char))
    (hasSessionSupport : Bool) (role : MsgType) (content : List Char) :
    List ApiCall :=
  if jsTruthyNum projectId = false then []
  else if hasSessionSupport = true ∧ jsTruthyStr sessionId = true ∧
      ¬("temp-".data.isPrefixOf (sessionId.getD [])) ∧
      ¬("project-".data.isPrefixOf (sessionId.getD [])) then
    [ApiCall.conversationMessages (sessionId.getD []) role content]
  else
    [ApiCall.projectMessages (projectId.getD 0) sessionId role content]

/-- Everything the backend decides during one submit: the clock, the
stream chunks and whether the stream throws, whether the summary update
is due, and the non-streaming response. -/
structure SubmitEnv where
  now : Nat
  streamChunks : List Chunk
  streamFails : Bool
  summaryDue : Bool
  modifyFails : Bool
  modifyResponseContent : List Char
  modifyErrorText : List Char
deriving DecidableEq

/-- handleSubmit (lines 1207-1256): the early return of line 1208, the
user-message append and save, then the streaming path (condition of line
1229: session support, truthy id, no `temp-` marker) or the non-streaming
fallback with its error handling.  Returns the message-list updates and
the backend calls, each in issue order. -/
def handleSubmit (parse : List Char → Option StreamData) (env : SubmitEnv)
    (prompt : List Char) (isLoading : Bool) (sessionId : Option (List Char))
    (hasSessionSupport : Bool) (projectId : Option Nat) :
    List MsgOp × List ApiCall :=
  if jsTrim prompt = [] ∨ isLoading = true then ([], [])
  else
    let userMsg : Message :=
      ⟨(toString env.now).data, prompt, MsgType.user, env.now, false⟩
    let saveUser := saveMessageCalls projectId sessionId hasSessionSupport
      MsgType.user prompt
    if hasSessionSupport = true ∧ jsTruthyStr sessionId = true ∧
        ¬("temp-".data.isPrefixOf (sessionId.getD [])) then
      if env.streamFails = true then
        (MsgOp.append userMsg :: streamErrorOps parse env.now env.streamChunks,
          saveUser ++ [ApiCall.modifyStream (sessionId.getD []) prompt])
      else
        (MsgOp.append userMsg :: streamSuccessOps parse env.now env.streamChunks,
          saveUser ++ [ApiCall.modifyStream (sessionId.getD []) prompt] ++
            (if jsTruthyNum projectId = true then
              [ApiCall.getProject (projectId.getD 0)] else []) ++
            (if env.summaryDue = true then
              [ApiCall.summaryUpdate (sessionId.getD []),
                ApiCall.conversationSummary (sessionId.getD []),
                ApiCall.conversationStats (sessionId.getD [])] else []))
    else
      if env.modifyFails = true then
        (MsgOp.append userMsg ::
          MsgOp.append ⟨(toString (env.now + 1)).data, env.modifyErrorText,
            MsgType.assistant, env.now, false⟩ ::
          [MsgOp.append ⟨(toString (env.now + 1)).data,
            "Sorry, I encountered an error while applying the changes.".data,
            MsgType.assistant, env.now, false⟩],
          saveUser ++ [ApiCall.modify sessionId prompt] ++
            saveMessageCalls projectId sessionId hasSessionSupport
              MsgType.assistant env.modifyErrorText ++
            saveMessageCalls projectId sessionId hasSessionSupport
              MsgType.assistant
              "Sorry, I encountered an error while applying the changes.".data)
      else
        (MsgOp.append userMsg ::
          [MsgOp.append ⟨(toString (env.now + 1)).data,
            env.modifyResponseContent, MsgType.assistant, env.now, false⟩],
          saveUser ++ [ApiCall.modify sessionId prompt] ++
            saveMessageCalls projectId sessionId hasSessionSupport
              MsgType.assistant env.modifyResponseContent ++
            (if jsTruthyNum projectId = true then
              [ApiCall.getProject (projectId.getD 0)] else []))

lemma jsTruthyStr_some_getD (o : Option (List Char)) (h : jsTruthyStr o = true) :
    o = some (o.getD []) := by
  cases o with
  | none => simp [jsTruthyStr] at h
  | some s => rfl

lemma saveMessageCalls_sessionId (projectId : Option Nat)
    (sidO : Option (List Char)) (support : Bool) (role : MsgType)
    (content : List Char) :
    ∀ c ∈ saveMessageCalls projectId sidO support role content,
      ∀ s, callSessionId c = some s → sidO = some s := by
  intro c hc s hs
  unfold saveMessageCalls at hc
  split at hc
  · exact absurd hc (List.not_mem_nil c)
  · split at hc
    · rename_i hcond
      rw [List.mem_singleton] at hc
      subst hc
      simp only [callSessionId, Option.some_inj] at hs
      rw [jsTruthyStr_some_getD sidO hcond.2.1, hs]
    · rw [List.mem_singleton] at hc
      subst hc
      exact hs

lemma handleSubmit_calls_sessionId (parse : List Char → Option StreamData)
    (env : SubmitEnv) (prompt : List Char) (sidO : Option (List Char))
    (projectId : Option Nat) :
    ∀ c ∈ (handleSubmit parse env prompt false sidO false projectId).2,
      ∀ s, callSessionId c = some s → sidO = some s := by
  intro c hc s hs
  unfold handleSubmit at hc
  by_cases hg : jsTrim prompt = [] ∨ false = true
  · rw [if_pos hg] at hc
    simp at hc
  · rw [if_neg hg] at hc
    have hbranch : ¬((false : Bool) = true ∧ jsTruthyStr sidO = true ∧
        ¬("temp-".data.isPrefixOf (sidO.getD []))) := by
      intro hcon
      exact Bool.false_ne_true hcon.1
    rw [if_neg hbranch] at hc
    by_cases hm : env.modifyFails = true
    · rw [if_pos hm] at hc
      simp only [List.mem_append, List.mem_singleton] at hc
      rcases hc with ((hc | hc) | hc) | hc
      · exact saveMessageCalls_sessionId projectId sidO false MsgType.user prompt c hc s hs
      · subst hc; exact hs
      · exact saveMessageCalls_sessionId projectId sidO false MsgType.assistant _ c hc s hs
      · exact saveMessageCalls_sessionId projectId sidO false MsgType.assistant _ c hc s hs
    · rw [if_neg hm] at hc
      simp only [List.mem_append, List.mem_singleton] at hc
      rcases hc with ((hc | hc) | hc) | hc
      · exact saveMessageCalls_sessionId projectId sidO false MsgType.user prompt c hc s hs
      · subst hc; exact hs
      · exact saveMessageCalls_sessionId projectId sidO false MsgType.assistant _ c hc s hs
      · by_cases hpj : jsTruthyNum projectId = true
        · rw [if_pos hpj] at hc
          simp only [List.mem_singleton] at hc
          subst hc
          simp [callSessionId] at hs
        · rw [if_neg hpj] at hc
          simp at hc

/-- Claim C7: when session creation fails during bootstrap the fallback
identifier is `project-` followed by the project id when one is present
(a backend id, hence nonzero), or `temp-` followed by the current time
otherwise; session support is flagged off; a repeated bootstrap returns
the same identifier without further calls; and every subsequent backend
call that carries a session identifier carries exactly that fallback. -/
theorem c7_session_fallback (projectId : Option Nat) (now now2 : Nat)
    (st0 : SessionState) (createRes2 : CreateResult)
    (initSid2 : Option (List Char)) (pid : Nat)
    (parse : List Char → Option StreamData) (env : SubmitEnv)
    (prompt content : List Char) (role : MsgType)
    (hpid : pid ≠ 0) (h0 : st0.sessionInitialized = false)
    (h1 : st0.sessionId = none) :
    fallbackSessionId (some pid) now = ("project-" ++ toString pid).data ∧
    fallbackSessionId none now = ("temp-" ++ toString now).data ∧
    ((initializeSession CreateResult.fail projectId none now st0).1.hasSessionSupport = false ∧
      (initializeSession CreateResult.fail projectId none now st0).1.sessionId =
        some (fallbackSessionId projectId now) ∧
      (initializeSession CreateResult.fail projectId none now st0).2.1 =
        some (fallbackSessionId projectId now) ∧
      (initializeSession CreateResult.fail projectId none now st0).1.sessionInitialized = true) ∧
    initializeSession createRes2 projectId initSid2 now2
        (initializeSession CreateResult.fail projectId none now st0).1 =
      ((initializeSession CreateResult.fail projectId none now st0).1,
        some (fallbackSessionId projectId now), []) ∧
    (∀ c ∈ saveMessageCalls projectId (some (fallbackSessionId projectId now))
        false role content,
      ∀ s, callSessionId c = some s → s = fallbackSessionId projectId now) ∧
    (∀ c ∈ (handleSubmit parse env prompt false
        (some (fallbackSessionId projectId now)) false projectId).2,
      ∀ s, callSessionId c = some s → s = fallbackSessionId projectId now) := by
  have hfb1 : fallbackSessionId (some pid) now = ("project-" ++ toString pid).data := by
    simp [fallbackSessionId, jsTruthyNum, hpid]
  have hfb2 : fallbackSessionId none now = ("temp-" ++ toString now).data := by
    simp [fallbackSessionId, jsTruthyNum]
  have hrun :
      (initializeSession CreateResult.fail projectId none now st0).1.hasSessionSupport = false ∧
      (initializeSession CreateResult.fail projectId none now st0).1.sessionId =
        some (fallbackSessionId projectId now) ∧
      (initializeSession CreateResult.fail projectId none now st0).2.1 =
        some (fallbackSessionId projectId now) ∧
      (initializeSession CreateResult.fail projectId none now st0).1.sessionInitialized = true := by
    simp [initializeSession, h0, h1, jsOrStr, jsTruthyStr]
  refine ⟨hfb1, hfb2, hrun, ?_, ?_, ?_⟩
  · obtain ⟨hA, hB, hC, hD⟩ := hrun
    generalize hg : (initializeSession CreateResult.fail projectId none now st0).1 = st1 at hB hD ⊢
    unfold initializeSession
    rw [if_pos hD, hB]
  · intro c hc s hs
    have := saveMessageCalls_sessionId projectId
      (some (fallbackSessionId projectId now)) false role content c hc s hs
    simpa using this.symm
  · intro c hc s hs
    have := handleSubmit_calls_sessionId parse env prompt
      (some (fallbackSessionId projectId now)) projectId c hc s hs
    simpa using this.symm

/-- Witness for C7 at project id 42, time 9. -/
theorem c7_session_fallback_witness :
    ((42 : Nat) ≠ 0) ∧
    (SessionState.mk none true false false).sessionInitialized = false ∧
    (SessionState.mk none true false false).sessionId = none ∧
    (fallbackSessionId (some 42) 9 = ("project-" ++ toString (42 : Nat)).data ∧
      (initializeSession CreateResult.fail (some 42) none 9
          (SessionState.mk none true false false)).1.sessionId =
        some (fallbackSessionId (some 42) 9)) := by
  refine ⟨by decide, rfl, rfl, ?_⟩
  have h := c7_session_fallback (some 42) 9 10 (SessionState.mk none true false false)
    (CreateResult.ok "x".data) none 42 jsonParse
    (SubmitEnv.mk 1 [] false false false [] []) "p".data "c".data MsgType.user
    (by decide) rfl rfl
  exact ⟨h.1, h.2.2.1.2.1⟩

lemma jsTrim_eq_nil (s : List Char) (h : ∀ c ∈ s, jsWhitespaceChar c = true) :
    jsTrim s = [] := by
  unfold jsTrim
  have h1 : s.dropWhile jsWhitespaceChar = [] := by
    rw [List.dropWhile_eq_nil_iff]
    exact h
  rw [h1]
  rfl

/-- Claim C9: an invocation of handleSubmit with an empty or
whitespace-only prompt, or made while a previous submit is still
loading, performs no message-list update (the list is unchanged, in
particular no user message is appended) and issues no backend request
(line 1208). -/
theorem c9_submit_guard (parse : List Char → Option StreamData)
    (env : SubmitEnv) (prompt : List Char) (isLoading : Bool)
    (sessionId : Option (List Char)) (hasSessionSupport : Bool)
    (projectId : Option Nat)
    (h : (∀ c ∈ prompt, jsWhitespaceChar c = true) ∨ isLoading = true) :
    handleSubmit parse env prompt isLoading sessionId hasSessionSupport
        projectId = ([], []) ∧
    ∀ ms : List Message,
      applyOps ms (handleSubmit parse env prompt isLoading sessionId
        hasSessionSupport projectId).1 = ms := by
  have hguard : jsTrim prompt = [] ∨ isLoading = true := by
    rcases h with h | h
    · exact Or.inl (jsTrim_eq_nil prompt h)
    · exact Or.inr h
  have hmain : handleSubmit parse env prompt isLoading sessionId
      hasSessionSupport projectId = ([], []) := by
    unfold handleSubmit
    rw [if_pos hguard]
  refine ⟨hmain, fun ms => ?_⟩
  rw [hmain]
  rfl

/-- Witness for C9: a whitespace prompt while idle, and a nonempty prompt
while loading, both leave everything untouched. -/
theorem c9_submit_guard_witness :
    ((∀ c ∈ "  ".data, jsWhitespaceChar c = true) ∨ (false : Bool) = true) ∧
    handleSubmit jsonParse (SubmitEnv.mk 1 [] false false false [] [])
      "  ".data false (some "s1".data) true (some 5) = ([], []) ∧
    ((∀ c ∈ "go".data, jsWhitespaceChar c = true) ∨ (true : Bool) = true) ∧
    handleSubmit jsonParse (SubmitEnv.mk 1 [] false false false [] [])
      "go".data true (some "s1".data) true (some 5) = ([], []) := by
  refine ⟨Or.inl (by decide), ?_, Or.inr rfl, ?_⟩
  · exact (c9_submit_guard jsonParse (SubmitEnv.mk 1 [] false false false [] [])
      "  ".data false (some "s1".data) true (some 5) (Or.inl (by decide))).1
  · exact (c9_submit_guard jsonParse (SubmitEnv.mk 1 [] false false false [] [])
      "go".data true (some "s1".data) true (some 5) (Or.inr rfl)).1

/-- How a run of generateCode's body ends: the POST /api/generate either
resolves (carrying a preview url the source then writes back) or
rejects. -/
inductive GenOutcome
  | success (previewUrl : Option (List Char))
  | failure
deriving DecidableEq

/-- generateCode (lines 720-790): the guard on the isGenerating ref
(lines 722-725) returns immediately when a run is in flight; otherwise
the body issues one generate request, on success with a truthy preview
url and a project id it writes the project back and refetches it, on
failure with a project id it refetches the project; the finally clause
(lines 785-787) resets the ref whichever way the body ended.  Returns
the backend calls issued and the ref value after the call returns. -/
def generateCode (isGenerating : Bool) (userPrompt : List Char)
    (projId : Option Nat) (outcome : GenOutcome) : List ApiCall × Bool :=
  if isGenerating = true then ([], isGenerating)
  else
    match outcome with
    | GenOutcome.success previewUrl =>
        ([ApiCall.generate userPrompt projId] ++
          (if jsTruthyNum projId = true ∧ jsTruthyStr previewUrl = true then
            [ApiCall.putProject (projId.getD 0), ApiCall.getProject (projId.getD 0)]
          else []), false)
    | GenOutcome.failure =>
        ([ApiCall.generate userPrompt projId] ++
          (if jsTruthyNum projId = true then [ApiCall.getProject (projId.getD 0)]
          else []), false)

/-- Whether a request is the POST /api/generate call. -/
def isGenerateCall : ApiCall → Bool
  | ApiCall.generate _ _ => true
  | _ => false

/-- Claim C8: while a generateCode run is in flight the flag is set, a
duplicate invocation issues no backend request at all and leaves the
flag to the in-flight owner; a completed invocation issues exactly one
generate request and ends with the flag reset whether the body succeeded
or failed — so two generate requests are never outstanding at once. -/
theorem c8_generate_gate (p : List Char) (pid : Option Nat) (o : GenOutcome) :
    (generateCode true p pid o).1 = [] ∧
    (generateCode true p pid o).2 = true ∧
    (generateCode false p pid o).2 = false ∧
    ((generateCode false p pid o).1.countP isGenerateCall) = 1 := by
  refine ⟨rfl, rfl, ?_, ?_⟩
  · cases o with
    | success u => rfl
    | failure => rfl
  · cases o with
    | success u =>
      by_cases hc : jsTruthyNum pid = true ∧ jsTruthyStr u = true
      · simp [generateCode, hc, isGenerateCall, List.countP_cons, List.countP_append]
      · simp [generateCode, hc, isGenerateCall, List.countP_cons, List.countP_append]
    | failure =>
      by_cases hc : jsTruthyNum pid = true
      · simp [generateCode, hc, isGenerateCall, List.countP_cons, List.countP_append]
      · simp [generateCode, hc, isGenerateCall, List.countP_cons, List.countP_append]

/-- The React state and ref checkServerHealth reads and writes: the
healthCheckDone ref, the isServerHealthy state (null before the first
completed check) and the error banner text. -/
structure HealthState where
  healthCheckDone : Bool
  isServerHealthy : Option Bool
  error : List Char
deriving DecidableEq

/-- The outcome of GET /health with its 5000 ms timeout: success, a
network-level axios failure (ECONNREFUSED or ERR_NETWORK, a timeout
falls here too), another axios error with an optional response status,
or a non-axios exception. -/
inductive HealthResp
  | ok
  | connRefused
  | serverErr (code : Option Nat)
  | other
deriving DecidableEq

/-- The status text of line 386: response status or "Unknown". -/
def statusText : Option Nat → String
  | some c => toString c
  | none => "Unknown"

/-- checkServerHealth (lines 362-393): when the done ref is set, return
the cached state value with no request; otherwise issue the one request,
latch the done ref, and set the health flag and the error banner from
the outcome.  Returns the new state, the returned value and whether a
request was issued. -/
def checkServerHealth (resp : HealthResp) (st : HealthState) :
    HealthState × Option Bool × Bool :=
  if st.healthCheckDone = true then (st, st.isServerHealthy, false)
  else
    match resp with
    | HealthResp.ok =>
        (⟨true, some true, []⟩, some true, true)
    | HealthResp.connRefused =>
        (⟨true, some false,
          "Backend server is not responding. Please ensure it's running on the correct port.".data⟩,
          some false, true)
    | HealthResp.serverErr code =>
        (⟨true, some false, ("Server error: " ++ statusText code).data⟩,
          some false, true)
    | HealthResp.other =>
        (⟨true, some false, "Cannot connect to server".data⟩, some false, true)

/-- The ref resets of retryConnection (lines 803-807) as far as the
health check is concerned: the done ref is cleared. -/
def retryResetFlags (st : HealthState) : HealthState :=
  { st with healthCheckDone := false }

/-- Claim C10: starting with the done ref clear, the first
checkServerHealth call issues the one request and latches the ref; any
second call issues no request, changes no state (in particular the error
text), and returns the cached health value; the ref stays latched until
retryConnection clears it. -/
theorem c10_health_check_once (resp1 resp2 : HealthResp) (st0 : HealthState)
    (h : st0.healthCheckDone = false) :
    ((checkServerHealth resp1 st0).1.healthCheckDone = true ∧
      (checkServerHealth resp1 st0).2.2 = true) ∧
    checkServerHealth resp2 (checkServerHealth resp1 st0).1 =
      ((checkServerHealth resp1 st0).1,
        (checkServerHealth resp1 st0).1.isServerHealthy, false) ∧
    (retryResetFlags (checkServerHealth resp1 st0).1).healthCheckDone = false := by
  cases resp1 <;>
    simp [checkServerHealth, retryResetFlags, h]

/-- Witness for C10: a successful first check followed by an attempted
second check. -/
theorem c10_health_check_once_witness :
    (HealthState.mk false none []).healthCheckDone = false ∧
    (((checkServerHealth HealthResp.ok (HealthState.mk false none [])).1.healthCheckDone = true ∧
      (checkServerHealth HealthResp.ok (HealthState.mk false none [])).2.2 = true) ∧
    checkServerHealth HealthResp.other
        (checkServerHealth HealthResp.ok (HealthState.mk false none [])).1 =
      ((checkServerHealth HealthResp.ok (HealthState.mk false none [])).1,
        (checkServerHealth HealthResp.ok (HealthState.mk false none [])).1.isServerHealthy,
        false) ∧
    (retryResetFlags
        (checkServerHealth HealthResp.ok (HealthState.mk false none [])).1).healthCheckDone =
      false) := by
  exact ⟨rfl, c10_health_check_once HealthResp.ok HealthResp.other
    (HealthState.mk false none []) rfl⟩

end ChatPage
